import Mathlib

/-!
# Verification of the Odo structure-to-view mapping engine

A shallow embedding of the `Odo` class (`src/Odo.js`, shipped inside the
repository's readme bundle) together with its error wrapper `OdoError`.

The JavaScript object graph is modelled explicitly:

* `Val` is the fragment of JavaScript values the engine manipulates
  (numbers restricted to integers, strings, booleans, `null`, `undefined`,
  arrays, plain objects, and opaque function values);
* `Node` is a property of the live view: either a plain value, an installed
  getter (accessor), or a container (object / array) holding further
  properties in insertion order;
* `OdoState` mirrors the instance: the non-enumerable internal bag `i`
  (`values`, `fields`, `unused`, `cached`) and the enumerable own
  properties of `this` (`root`).

Reference identity of cached transform outputs is modelled by an
allocation counter: every freshly computed transform output receives a
fresh tag, and the cache stores the tag with the value, so "the same
reference is returned" is rendered as "the same tag is returned".
-/

set_option maxHeartbeats 1000000

/-- The fragment of JavaScript values used by the engine.  Numbers are
restricted to integers (the repository's examples and tests use integer
values only); a function value is opaque data identified by an id. -/
inductive Val where
  | undef : Val
  | null : Val
  | bool : Bool → Val
  | int : Int → Val
  | str : String → Val
  | list : List Val → Val
  | obj : List (String × Val) → Val
  | fn : Nat → Val
deriving Repr

/-- JavaScript truthiness on `Val` (`!x` in the source tests this):
`undefined`, `null`, `false`, `0` and `""` are falsy, everything else
(including every object and array) is truthy. -/
def truthyVal : Val → Bool
  | .undef => false
  | .null => false
  | .bool b => b
  | .int n => !(n == 0)
  | .str s => !(s == "")
  | .list _ => true
  | .obj _ => true
  | .fn _ => true

/-- JavaScript `values[i]` for an integer `i` on an array: the element at
`i` when `0 <= i < length`, otherwise `undefined` (a negative index is an
ordinary property lookup and yields `undefined`; it does *not* index from
the end). -/
def jsIndex (xs : List Val) (i : Int) : Val :=
  if 0 ≤ i then xs.getD i.toNat Val.undef else (Val.undef)

/-- Clamp a relative slice bound as `Array.prototype.slice` does:
negative bounds count from the end (clamped below at 0), nonnegative
bounds are clamped above at the length. -/
def sliceBound (len : Nat) (i : Int) : Nat :=
  if i < 0 then ((len : Int) + i).toNat else min i.toNat len

/-- JavaScript `values.slice(s, e)` (half-open, negative indices count
from the end). -/
def jsSlice (xs : List Val) (s e : Int) : List Val :=
  let a := sliceBound xs.length s
  let b := sliceBound xs.length e
  (xs.drop a).take (b - a)

/-- `fieldName.includes('.')`, implemented over the character list so that
concrete instances evaluate definitionally. -/
def containsDot (s : String) : Bool :=
  s.toList.any (fun c => c == '.')

/-- Split a list of characters at every `'.'` (the splitter of
`fieldName.split('.')`): always returns at least one (possibly empty)
chunk. -/
def splitDotAux : List Char → List Char → List String
  | [], cur => [String.mk cur.reverse]
  | c :: rest, cur =>
    if c == '.' then String.mk cur.reverse :: splitDotAux rest []
    else splitDotAux rest (c :: cur)

/-- `fieldName.split('.')`. -/
def splitDot (s : String) : List String :=
  splitDotAux s.toList []

/-- `cs` is a nonempty list of decimal digits. -/
def isDigitChars (cs : List Char) : Bool :=
  !cs.isEmpty && cs.all Char.isDigit

/-- `cs` is a nonempty list of hexadecimal digits. -/
def isHexDigitChars (cs : List Char) : Bool :=
  !cs.isEmpty && cs.all (fun c => c.isDigit || (c ≥ 'a' && c ≤ 'f') || (c ≥ 'A' && c ≤ 'F'))

/-- Models JavaScript `isFinite(segment)` (global `isFinite`, which first
coerces the string through `Number(...)`) on dot-free path segments: a
blank string coerces to `0` (finite); an optionally signed nonempty digit
string is a finite number; an unsigned `0x`/`0X` hexadecimal literal is a
finite number; anything else the engine's paths can contain (alphabetic
keys, `Infinity`, mixed text) is `NaN` or infinite.  Fractional forms
cannot occur here because segments never contain a dot; exponent forms
and overflow to `Infinity` lie outside the fragment this development
exercises. -/
def jsIsFiniteStr (s : String) : Bool :=
  let cs := ((s.toList.dropWhile Char.isWhitespace).reverse.dropWhile Char.isWhitespace).reverse
  match cs with
  | [] => true
  | '0' :: 'x' :: rest => isHexDigitChars rest
  | '0' :: 'X' :: rest => isHexDigitChars rest
  | '-' :: rest => isDigitChars rest
  | '+' :: rest => isDigitChars rest
  | _ => isDigitChars cs

/-- JavaScript `String(array)` for an array of strings: the elements
joined with commas (used because the source appends the whole path
*array* into a template/concatenation). -/
def jsArrayToString (xs : List String) : String :=
  String.intercalate "," xs


/-- A range specification, the value side of an `addStructure` entry.
The five constructors are the five shapes `_convertRangeToGetter`
distinguishes, in the order of its branches: a bare function, a finite
number (`Number.isFinite(range)`), `[index, fn]` (`range[1]` is a
function), `[start, end, fn]` (`range[2]` is a function) and `[start,
end]`.  Transform functions are modelled as Lean functions on `Val`;
indices are integers. -/
inductive RangeSpec where
  | bare : (Val → Val) → RangeSpec
  | idx : Int → RangeSpec
  | idxFn : Int → (Val → Val) → RangeSpec
  | rng : Int → Int → RangeSpec
  | rngFn : Int → Int → (Val → Val) → RangeSpec

/-- An installed accessor (the closure returned by
`_convertRangeToGetter`).  The cached shapes carry the cache key: in the
source the key is the identity of the range array; every `addStructure`
entry carries a distinct array literal, modelled by allocating a fresh
numeric key at install time. -/
inductive Getter where
  | bare : (Val → Val) → Val → Getter
  | single : Int → Getter
  | singleT : Int → (Val → Val) → Nat → Getter
  | ranged : Int → Int → Getter
  | rangedT : Int → Int → (Val → Val) → Nat → Getter

/-- One enumerable own property of the view: a plain data value, an
installed getter, or a container created by `_ensurePathStructure`
(`{}` giving `objNode`, `[]` giving `arrNode`) whose own properties are
kept in insertion order. -/
inductive Node where
  | val : Val → Node
  | getter : Getter → Node
  | objNode : List (String × Node) → Node
  | arrNode : List (String × Node) → Node

/-- The whole instance: the internal non-enumerable bag `this.i`
(`values`, `fields`, `unused`, `cached`) plus the enumerable own
properties of `this` (`root`).  `fields` and `unused` are JavaScript
`Set`s (insertion-ordered, duplicate-free) modelled as lists; `cached`
is the `Map` from cache key to the memoized value, which additionally
records the allocation tag of the stored value so that reference
identity of cache hits is expressible; `alloc` is the fresh-tag / cache
key counter. -/
structure OdoState where
  values : List Val
  fields : List String
  unused : List String
  cached : List (Nat × (Nat × Val))
  root : List (String × Node)
  alloc : Nat

/-- `new Odo()`. -/
def newOdo : OdoState :=
  { values := [], fields := [], unused := [], cached := [], root := [], alloc := 0 }

/-- The `OdoError` wrapper: the message plus the diagnostic context
`{ cursor, field }`.  The cursor is identified by the prefix of segments
already walked (`walkedPath`, pinning down `cursor.obj`), the full
intermediate path (`cursorPath`, i.e. `cursor.path`) and the final key
(`cursorKey`, i.e. `cursor.key`); `field` is the offending segment. -/
structure OdoErr where
  message : String
  walkedPath : List String
  cursorPath : List String
  cursorKey : String
  field : String
deriving Repr, DecidableEq

/-- JavaScript `Set.prototype.add`: append if not already present. -/
def addToSet (l : List String) (s : String) : List String :=
  if s ∈ l then l else l ++ [s]

/-- Look a property up in an insertion-ordered property list. -/
def lookupProp : List (String × Node) → String → Option Node
  | [], _ => none
  | (k', v) :: rest, k => if k' = k then some v else lookupProp rest k

/-- Define or overwrite a property: an existing key keeps its position
(as `Object.defineProperty` / assignment do), a new key is appended. -/
def setPropList : List (String × Node) → String → Node → List (String × Node)
  | [], k, v => [(k, v)]
  | (k', v') :: rest, k, v =>
    if k' = k then (k, v) :: rest else (k', v') :: setPropList rest k v

/-- `delete obj[k]`: remove the property if present. -/
def eraseProp : List (String × Node) → String → List (String × Node)
  | [], _ => []
  | (k', v) :: rest, k => if k' = k then rest else (k', v) :: eraseProp rest k

/-- Cache lookup (`this.i.cached.has/get`). -/
def lookupCache : List (Nat × (Nat × Val)) → Nat → Option (Nat × Val)
  | [], _ => none
  | (k', v) :: rest, k => if k' = k then some v else lookupCache rest k

/-- The value an accessor currently yields, read without the cache-fill
side effect (used when a getter is forced in the middle of a structural
walk, where only the produced value matters). -/
def getterValuePure (st : OdoState) : Getter → Val
  | .bare f ex => f ex
  | .single i => jsIndex st.values i
  | .singleT i f k =>
    match lookupCache st.cached k with
    | some (_, v) => v
    | none => f (jsIndex st.values i)
  | .ranged s e => .list (jsSlice st.values s e)
  | .rangedT s e f k =>
    match lookupCache st.cached k with
    | some (_, v) => v
    | none => f (.list (jsSlice st.values s e))

/-- A canonical array index: the key is the decimal form of a natural
number without leading zeros (JavaScript array index keys; `"00"` or
`"-1"` are ordinary non-index properties that array serialization
ignores). -/
def parseIndex (s : String) : Option Nat :=
  match s.toList with
  | [] => none
  | c :: rest =>
    if isDigitChars (c :: rest) ∧ (c = '0' → rest = []) then
      some ((c :: rest).foldl (fun a d => a * 10 + (d.toNat - '0'.toNat)) 0)
    else none

/-- The array length a property list induces: one past the largest
canonical index key (`0` when there is none). -/
def arrLength (pvs : List (String × Val)) : Nat :=
  pvs.foldl
    (fun n kv => match parseIndex kv.1 with | some i => max n (i + 1) | none => n)
    0

/-- Reassemble a JavaScript array value from the materialized property
list of an array container: element `i` is the property named `i`, a
hole is `undefined`. -/
def arrAssemble (pvs : List (String × Val)) : Val :=
  .list ((List.range (arrLength pvs)).map
    (fun i => (pvs.lookup (toString i)).getD .undef))

mutual
/-- Force a whole view property into a plain value: getters are read
(through the cache when it already holds their key, exactly as a
`JSON.stringify` walk would observe them), containers are walked
recursively, and an array container is reassembled from its canonical
index properties. -/
def materializeNode (st : OdoState) : Node → Val
  | .val v => v
  | .getter g => getterValuePure st g
  | .objNode ps => .obj (materializeProps st ps)
  | .arrNode ps => arrAssemble (materializeProps st ps)

/-- Force every property of a container in order. -/
def materializeProps (st : OdoState) : List (String × Node) → List (String × Val)
  | [] => []
  | (k, n) :: rest => (k, materializeNode st n) :: materializeProps st rest
end

mutual
/-- The value-level effect of `JSON.parse(JSON.stringify(v))` on the
modelled fragment: `undefined` and functions vanish (`none`), objects
drop every property whose value vanishes, arrays replace a vanishing
element by `null`, everything else survives unchanged. -/
def jsonScrub : Val → Option Val
  | .undef => none
  | .fn _ => none
  | .null => some .null
  | .bool b => some (.bool b)
  | .int n => some (.int n)
  | .str s => some (.str s)
  | .list xs => some (.list (jsonScrubArr xs))
  | .obj ps => some (.obj (jsonScrubObj ps))

/-- Array elements under the JSON round trip: a vanishing element
(function or `undefined`) is serialized as `null`. -/
def jsonScrubArr : List Val → List Val
  | [] => []
  | x :: xs => ((jsonScrub x).getD .null) :: jsonScrubArr xs

/-- Object properties under the JSON round trip: a property whose value
vanishes (function or `undefined`) is dropped. -/
def jsonScrubObj : List (String × Val) → List (String × Val)
  | [] => []
  | (k, v) :: ps =>
    match jsonScrub v with
    | some w => (k, w) :: jsonScrubObj ps
    | none => jsonScrubObj ps
end

/-- `export()`: `JSON.parse(JSON.stringify(this))`.  `JSON.stringify`
serializes the enumerable own properties of `this` (the view; the
internal bag `i` is non-enumerable and skipped), invoking every getter,
then the round trip scrubs non-interchangeable values. -/
def exportOdo (st : OdoState) : Val :=
  .obj (jsonScrubObj (materializeProps st st.root))

/-- `setValues(values)`: replace the backing sequence wholesale and clear
the transform cache; nothing else is touched. -/
def setValues (st : OdoState) (vs : List Val) : OdoState :=
  { st with values := vs, cached := [] }

/-- `_convertRangeToGetter(range, existingValue)` together with the
`_cachedValue` wrapper: dispatch once at install time on the shape of
the range spec; the transform-bearing shapes receive the fresh cache key
(the identity of the range array in the source). -/
def convertRangeToGetter (spec : RangeSpec) (existing : Val) (cacheKey : Nat) : Getter :=
  match spec with
  | .bare f => .bare f existing
  | .idx i => .single i
  | .idxFn i f => .singleT i f cacheKey
  | .rng s e => .ranged s e
  | .rngFn s e f => .rangedT s e f cacheKey

/-- Whether a spec shape goes through `_cachedValue` (and hence consumes
a cache key). -/
def specUsesCache : RangeSpec → Bool
  | .idxFn _ _ => true
  | .rngFn _ _ _ => true
  | _ => false

/-- Invoke an installed accessor.  Returns the produced value, the
reference tag of the produced object for cached accessors (`some tag`;
equal tags model `===`-equal results), and the updated state (a cache
miss stores the freshly computed value under a fresh tag, a second read
returns the stored value and tag unchanged — the body of
`_cachedValue`). -/
def forceGetter (st : OdoState) : Getter → Val × Option Nat × OdoState
  | .bare f ex => (f ex, none, st)
  | .single i => (jsIndex st.values i, none, st)
  | .singleT i f k =>
    match lookupCache st.cached k with
    | some (tag, v) => (v, some tag, st)
    | none =>
      let v := f (jsIndex st.values i)
      (v, some st.alloc,
        { st with cached := (k, (st.alloc, v)) :: st.cached, alloc := st.alloc + 1 })
  | .ranged s e => (.list (jsSlice st.values s e), none, st)
  | .rangedT s e f k =>
    match lookupCache st.cached k with
    | some (tag, v) => (v, some tag, st)
    | none =>
      let v := f (.list (jsSlice st.values s e))
      (v, some st.alloc,
        { st with cached := (k, (st.alloc, v)) :: st.cached, alloc := st.alloc + 1 })

/-- Read a top-level field of the view (`o.fieldName`): an installed
getter is invoked, a plain value or container is returned as-is (a
container read as its materialized snapshot), an absent property is
`undefined`. -/
def readField (st : OdoState) (key : String) : Val × Option Nat × OdoState :=
  match lookupProp st.root key with
  | some (.getter g) => forceGetter st g
  | some n => (materializeNode st n, none, st)
  | none => (.undef, none, st)

/-- The container `_ensurePathStructure` creates for a missing segment:
`isNextKeyNumeric ? [] : {}`. -/
def newContainer (isNextKeyNumeric : Bool) : Node :=
  if isNextKeyNumeric then .arrNode [] else .objNode []

/-- The own properties of a node (empty for non-containers). -/
def nodeProps : Node → List (String × Node)
  | .objNode ps => ps
  | .arrNode ps => ps
  | _ => []

/-- Replace the own properties of a container (a no-op on
non-containers; the source would be attempting property creation on a
primitive there, which the claims never exercise). -/
def setNodeProps : Node → List (String × Node) → Node
  | .objNode _, ps => .objNode ps
  | .arrNode _, ps => .arrNode ps
  | n, _ => n

/-- The descending walk of `_ensurePathStructure`: for each intermediate
segment, create the missing container (array iff `isPathNumber[index+1]`,
which is `false` beyond the end of the intermediate-segment list) and
descend; an existing property is descended into unchanged. -/
def ensureWalk (node : Node) (keys : List String) (nums : List Bool) (index : Nat) : Node :=
  match keys with
  | [] => node
  | k :: ks =>
    match lookupProp (nodeProps node) k with
    | some child =>
      setNodeProps node (setPropList (nodeProps node) k (ensureWalk child ks nums (index + 1)))
    | none =>
      let fresh := newContainer (nums.getD (index + 1) false)
      setNodeProps node (setPropList (nodeProps node) k (ensureWalk fresh ks nums (index + 1)))

/-- The unused-reclamation loop of `_ensurePathStructure`: on every
iteration the source appends the string form of the whole remaining path
*array* (`rebuiltPath += (rebuiltPath ? '.' : '') + path`, where `path`
is the array, i.e. its elements joined with commas), then deletes the
rebuilt key from the unused set. -/
def reclaimLoop (unused : List String) (rebuilt chunk : String) : List String → List String
  | [] => unused
  | _ :: ks =>
    let rebuilt' := if rebuilt = "" then chunk else rebuilt ++ "." ++ chunk
    reclaimLoop (unused.erase rebuilt') rebuilt' chunk ks

/-- `_ensurePathStructure(path)`: ensure every intermediate container of
the path exists on the view, reclaim unused prefixes (as the source
actually rebuilds them), and return the cursor: the intermediate path
(locating `cursor.obj`) and the final key. -/
def ensurePathStructure (st : OdoState) (segs : List String) :
    OdoState × List String × String :=
  let lastKey := (segs.getLast?).getD ""
  let rest := segs.dropLast
  let nums := rest.map jsIsFiniteStr
  let root' := nodeProps (ensureWalk (.objNode st.root) rest nums 0)
  let unused' := reclaimLoop st.unused "" (jsArrayToString rest) rest
  ({ st with root := root', unused := unused' }, rest, lastKey)

/-- Write a node at `path ++ [key]`, walking only containers that are
already present (after `_ensurePathStructure` ran, the chain exists). -/
def setAtPath (n : Node) (path : List String) (key : String) (child : Node) : Node :=
  match path with
  | [] => setNodeProps n (setPropList (nodeProps n) key child)
  | k :: ks =>
    match lookupProp (nodeProps n) k with
    | some c => setNodeProps n (setPropList (nodeProps n) k (setAtPath c ks key child))
    | none => n

/-- `delete` the property `key` of the container at `path`. -/
def deleteAtPath (n : Node) (path : List String) (key : String) : Node :=
  match path with
  | [] => setNodeProps n (eraseProp (nodeProps n) key)
  | k :: ks =>
    match lookupProp (nodeProps n) k with
    | some c => setNodeProps n (setPropList (nodeProps n) k (deleteAtPath c ks key))
    | none => n

/-- The node found at `path` (descending through containers only). -/
def nodeAtPath (n : Node) : List String → Option Node
  | [] => some n
  | k :: ks =>
    match lookupProp (nodeProps n) k with
    | some c => nodeAtPath c ks
    | none => none

/-- The value `obj[key]` read at a cursor when `addStructure` captures
`existingValue` for the new getter.  In the source this is a live
reference when the slot holds a container; the model snapshots the
materialized value (the difference is unobservable in this
development, which never mutates a captured container afterwards). -/
def snapshotAt (st : OdoState) (path : List String) (key : String) : Val :=
  match nodeAtPath (.objNode st.root) path with
  | some n =>
    match lookupProp (nodeProps n) key with
    | some child => materializeNode st child
    | none => .undef
  | none => (Val.undef)

/-- JavaScript `a < b` on strings: lexicographic comparison of the
character (code unit) sequences. -/
def strLtChars : List Char → List Char → Bool
  | [], [] => false
  | [], _ :: _ => true
  | _ :: _, [] => false
  | a :: as, b :: bs => if a = b then strLtChars as bs else a < b

/-- JavaScript string comparison `a < b`. -/
def strLt (a b : String) : Bool :=
  strLtChars a.toList b.toList

/-- Stable insertion for the reverse-lexicographic sort `addStructure`
performs (`(a, b) => a[0] > b[0] ? -1 : a[0] < b[0] ? 1 : 0`, run by the
stable `Array.prototype.sort`): an entry moves ahead of exactly the
entries whose key is strictly smaller. -/
def insertDesc (x : String × RangeSpec) :
    List (String × RangeSpec) → List (String × RangeSpec)
  | [] => [x]
  | y :: ys => if strLt y.1 x.1 then x :: y :: ys else y :: insertDesc x ys

/-- `[...Object.entries(structure)].sort(...)`: reverse-lexicographic,
stable. -/
def sortEntriesDesc (l : List (String × RangeSpec)) : List (String × RangeSpec) :=
  l.foldl (fun acc x => insertDesc x acc) []

/-- The body of the `addStructure` loop for one `[fieldName, range]`
entry: record the field, resolve the cursor (through
`_ensurePathStructure` when the name is a dotted path, else `this` and
the name itself), capture `obj[key]`, and install the getter built by
`_convertRangeToGetter` at the cursor.  A transform-bearing spec
consumes a fresh cache key. -/
def addStructureEntry (st : OdoState) (fieldName : String) (range : RangeSpec) : OdoState :=
  let st := { st with fields := addToSet st.fields fieldName }
  let (st, path, key) :=
    if containsDot fieldName then ensurePathStructure st (splitDot fieldName)
    else (st, [], fieldName)
  let existing := snapshotAt st path key
  let g := convertRangeToGetter range existing st.alloc
  let st := if specUsesCache range then { st with alloc := st.alloc + 1 } else st
  { st with root := nodeProps (setAtPath (.objNode st.root) path key (.getter g)) }

/-- `addStructure(structure)`: sort the entries reverse-lexicographically
and install each one. -/
def addStructure (st : OdoState) (structure' : List (String × RangeSpec)) : OdoState :=
  (sortEntriesDesc structure').foldl (fun s e => addStructureEntry s e.1 e.2) st

/-- Property read during cursor navigation (`cursor.obj[field]`): on a
container it reads the own property, invoking an installed getter; on a
plain object or array value it reads the member; anything else yields
`undefined`. -/
def readPropNav (st : OdoState) (n : Node) (k : String) : Node :=
  match n with
  | .objNode ps =>
    match lookupProp ps k with
    | some (.getter g) => .val (getterValuePure st g)
    | some c => c
    | none => .val .undef
  | .arrNode ps =>
    match lookupProp ps k with
    | some (.getter g) => .val (getterValuePure st g)
    | some c => c
    | none => .val .undef
  | .val (.obj pvs) => .val ((pvs.lookup k).getD .undef)
  | .val (.list xs) =>
    .val (match parseIndex k with | some i => xs.getD i .undef | none => .undef)
  | _ => .val (Val.undef)

/-- Truthiness of a navigation result: containers are objects (truthy),
plain values by `truthyVal`.  (A getter node never appears here:
`readPropNav` already converts it to its value.) -/
def truthyNode : Node → Bool
  | .val v => truthyVal v
  | _ => true

/-- The error `_getCursorToEndOfPath` throws at segment `field` of the
intermediate path `path`. -/
def pathError (field : String) (path : List String) (walked : List String)
    (lastKey : String) : OdoErr :=
  { message := s!"\x22{field}\x22 may be misdefined, encountered undefined parent for path elements \x22{jsArrayToString path}\x22"
    walkedPath := walked
    cursorPath := path
    cursorKey := lastKey
    field := field }

/-- The navigation loop of `_getCursorToEndOfPath`: descend segment by
segment; a falsy parent (`!cursor.obj[field]`) aborts with an `OdoError`
carrying the cursor and the offending segment. -/
def walkNav (st : OdoState) (path : List String) (lastKey : String) :
    Node → List String → List String → Except OdoErr Unit
  | _, [], _ => .ok ()
  | n, f :: fs, walked =>
    let child := readPropNav st n f
    if truthyNode child then walkNav st path lastKey child fs (walked ++ [f])
    else .error (pathError f path walked lastKey)

/-- `_getCursorToEndOfPath([...path])`: pop the last key, navigate the
remaining segments from `this`, and return the cursor (intermediate
path and final key); throws on a falsy parent. -/
def getCursorToEndOfPath (st : OdoState) (segs : List String) :
    Except OdoErr (List String × String) :=
  let lastKey := (segs.getLast?).getD ""
  let rest := segs.dropLast
  (walkNav st rest lastKey (.objNode st.root) rest []).map (fun _ => (rest, lastKey))

/-- The body of the `resetStructure` loop for one registered field: a
dotted path resolves its cursor (which may throw), records the
intermediate path, joined with dots, in the unused set, and deletes the
leaf; a plain field is deleted from `this` directly. -/
def resetStructureField (st : OdoState) (fieldName : String) : Except OdoErr OdoState := do
  if containsDot fieldName then
    let (cpath, ckey) ← getCursorToEndOfPath st (splitDot fieldName)
    let st := { st with unused := addToSet st.unused (String.intercalate "." cpath) }
    pure { st with root := nodeProps (deleteAtPath (.objNode st.root) cpath ckey) }
  else
    pure { st with root := eraseProp st.root fieldName }

/-- `resetStructure()`: clear the unused set and the cache first, then
remove every registered field (recording unused container paths), then
clear the registry. -/
def resetStructure (st : OdoState) : Except OdoErr OdoState := do
  let st := { st with unused := [], cached := [] }
  let st ← st.fields.foldlM resetStructureField st
  pure { st with fields := [] }

/-- `removeUnusedStructure()`: the unused set only ever holds joined
path *strings* (see `resetStructureField`), so the source's
`Array.isArray(field)` test is never true and its cursor branch is dead;
the executed effect of every iteration is `delete this[field]` with the
joined string as the literal property key.  Finally the unused set is
cleared. -/
def removeUnusedStructure (st : OdoState) : OdoState :=
  let root := st.unused.foldl (fun r f => eraseProp r f) st.root
  { st with root := root, unused := [] }

/-- `setStructure(structure)`: `resetStructure()`, `addStructure()`,
`removeUnusedStructure()`. -/
def setStructure (st : OdoState) (structure' : List (String × RangeSpec)) :
    Except OdoErr OdoState :=
  (resetStructure st).map (fun s => removeUnusedStructure (addStructure s structure'))

/-- Whether a node is an array container. -/
def isArrayNode : Node → Bool
  | .arrNode _ => true
  | _ => false

/-- The closed form of the container chain `_ensurePathStructure` builds
on an empty instance for the intermediate segments of a path: each
segment's container holds the next segment's container, and it is an
array exactly when the *next intermediate* segment satisfies the
source's `isFinite` test — the container for the final intermediate
segment (whose successor would be the leaf, which was popped before
`isPathNumber` was computed) is always a plain object. -/
def chainProps : List String → List (String × Node)
  | [] => []
  | [k] => [(k, Node.objNode [])]
  | k :: k' :: ks =>
    [(k,
      if jsIsFiniteStr k' then Node.arrNode (chainProps (k' :: ks))
      else Node.objNode (chainProps (k' :: ks)))]

mutual
/-- No function value occurs anywhere inside `v`. -/
def fnFree : Val → Bool
  | .fn _ => false
  | .list xs => fnFreeArr xs
  | .obj ps => fnFreeObj ps
  | _ => true

/-- No function value occurs in any element. -/
def fnFreeArr : List Val → Bool
  | [] => true
  | x :: xs => fnFree x && fnFreeArr xs

/-- No function value occurs in any property value. -/
def fnFreeObj : List (String × Val) → Bool
  | [] => true
  | (_, v) :: ps => fnFree v && fnFreeObj ps
end

/-- Navigate a sequence of property reads from a node (the specification
side of the `_getCursorToEndOfPath` walk: the object the cursor sees
after blindly descending the given segments). -/
def navSeq (st : OdoState) (n : Node) : List String → Node
  | [] => n
  | k :: ks => navSeq st (readPropNav st n k) ks

/-- The parent that the cursor walk inspects at step `j` of an
intermediate path, and its truthiness. -/
def stepTruthy (st : OdoState) (rest : List String) (j : Nat) : Bool :=
  truthyNode (readPropNav st (navSeq st (.objNode st.root) (rest.take j)) (rest.getD j ""))

/-- The public operations other than `resetStructure` (used to express
that once a path has dropped out of the unused set, no later sequence of
these operations ever returns it there). -/
inductive NonResetOp where
  | setVals : List Val → NonResetOp
  | addStr : List (String × RangeSpec) → NonResetOp
  | removeUnused : NonResetOp

/-- Apply one non-reset operation. -/
def applyNonResetOp (st : OdoState) : NonResetOp → OdoState
  | .setVals vs => setValues st vs
  | .addStr entries => addStructure st entries
  | .removeUnused => removeUnusedStructure st

/-- Apply a sequence of non-reset operations. -/
def applyNonResetOps (st : OdoState) : List NonResetOp → OdoState
  | [] => st
  | op :: ops => applyNonResetOps (applyNonResetOp st op) ops
example : splitDot "a.b.c" = ["a", "b", "c"] := by rfl
example : splitDot "list" = ["list"] := by rfl
example : containsDot "a.b" = true := by rfl
example : containsDot "ab" = false := by rfl
example : jsIsFiniteStr "0" = true := by rfl
example : jsIsFiniteStr "17" = true := by rfl
example : jsIsFiniteStr "-3" = true := by rfl
example : jsIsFiniteStr "" = true := by rfl
example : jsIsFiniteStr "x" = false := by rfl
example : jsIsFiniteStr "position" = false := by rfl
example : jsSlice [.int 1, .int 2, .int 3] (-2) 3 = [.int 2, .int 3] := by rfl
example : jsIndex [.int 1, .int 2] (-1) = .undef := by rfl

/-! Sanity checks reproducing the repository's jest tests (entries are
installed in the reverse-lexicographic order of their keys, so the
resulting property lists appear in that order). -/

example :
    (setStructure (setValues newOdo
        [.int 11, .int 12, .int 13, .int 14, .int 15, .int 16])
      [("a", .idx 0), ("b", .idx 1), ("c", .idx 2)]).map exportOdo
    = .ok (.obj [("c", .int 13), ("b", .int 12), ("a", .int 11)]) := by rfl

example :
    (setStructure (setValues newOdo
        [.int 11, .int 12, .int 13, .int 14, .int 15, .int 16])
      [("a", .idx 0), ("list", .rng 3 6)]).map exportOdo
    = .ok (.obj [("list", .list [.int 14, .int 15, .int 16]), ("a", .int 11)]) := by rfl

example :
    (setStructure (setValues newOdo
        [.int 11, .int 12, .int 13, .int 14, .int 15, .int 16])
      [("a", .idxFn 0 (fun v => match v with | .int n => .int (n * 100) | _ => .undef)),
       ("list", .rngFn 3 6 (fun v => match v with
         | .list xs => .list (xs.map (fun x => match x with
             | .int n => .int (n + 10) | _ => .undef))
         | _ => .undef))]).map exportOdo
    = .ok (.obj [("list", .list [.int 24, .int 25, .int 26]), ("a", .int 1100)]) := by rfl

example :
    (setStructure (setValues newOdo
        [.int 11, .int 12, .int 13, .int 14, .int 15, .int 16])
      [("position.x", .idx 0), ("position.y", .idx 1),
       ("cow.launcher.enabled", .idx 4)]).map exportOdo
    = .ok (.obj
        [("position", .obj [("y", .int 12), ("x", .int 11)]),
         ("cow", .obj [("launcher", .obj [("enabled", .int 15)])])]) := by rfl

example :
    (setStructure (setValues newOdo
        [.int 11, .int 12, .int 13, .int 14, .int 15, .int 16])
      [("b", .idx 1)]).map (fun s => (readField (setValues s
        [.int 111, .int 112, .int 113, .int 114, .int 115, .int 116]) "b").1)
    = .ok (.int 112) := by rfl

example :
    (setStructure (setValues newOdo [.int 11, .int 12])
      [("list", .rngFn 0 2 (fun v => .list [v]))]).map (fun s =>
        let r1 := readField s "list"
        let r2 := readField r1.2.2 "list"
        (r1.2.1, r2.2.1))
    = .ok (some 1, some 1) := by rfl

/-! ## Helper lemmas -/

theorem lookupProp_nil (k : String) : lookupProp [] k = none := rfl

theorem lookupProp_cons_self (k : String) (n : Node) (r : List (String × Node)) :
    lookupProp ((k, n) :: r) k = some n := by
  simp [lookupProp]

theorem lookupProp_cons_ne (k' k : String) (n : Node) (r : List (String × Node))
    (h : k' ≠ k) : lookupProp ((k', n) :: r) k = lookupProp r k := by
  simp [lookupProp, h]

theorem setPropList_cons_ne (k' k : String) (n' n : Node) (r : List (String × Node))
    (h : k' ≠ k) : setPropList ((k', n') :: r) k n = (k', n') :: setPropList r k n := by
  simp [setPropList, h]

theorem eraseProp_cons_self (k : String) (n : Node) (r : List (String × Node)) :
    eraseProp ((k, n) :: r) k = r := by
  simp [eraseProp]

theorem eraseProp_cons_ne (k' k : String) (n : Node) (r : List (String × Node))
    (h : k' ≠ k) : eraseProp ((k', n) :: r) k = (k', n) :: eraseProp r k := by
  simp [eraseProp, h]

theorem lookupProp_eraseProp_ne (r : List (String × Node)) (f k : String)
    (h : f ≠ k) : lookupProp (eraseProp r f) k = lookupProp r k := by
  induction r with
  | nil => rfl
  | cons kv rest ih =>
    obtain ⟨k', n⟩ := kv
    by_cases hk : k' = f
    · subst hk
      rw [eraseProp_cons_self, lookupProp_cons_ne _ _ _ _ h]
    · rw [eraseProp_cons_ne _ _ _ _ hk]
      by_cases hkk : k' = k
      · subst hkk
        rw [lookupProp_cons_self, lookupProp_cons_self]
      · rw [lookupProp_cons_ne _ _ _ _ hkk, lookupProp_cons_ne _ _ _ _ hkk, ih]

/-! ## Claims -/

/-- C1 (counterexample): for the value sequence `[5]` (length 1) and a
field declared with the single negative index `-1` (so `-n <= i < 0`),
the claim asserts the read returns `V[n+i] = V[0] = 5`; the code's
getter evaluates `this.i.values[-1]`, which is `undefined`, not `5`. -/
theorem c1_counterexample :
    (readField (addStructure (setValues newOdo [Val.int 5])
        [("f", RangeSpec.idx (-1))]) "f").1 = Val.undef
    ∧ Val.undef ≠ Val.int 5 :=
  ⟨rfl, fun h => Val.noConfusion h⟩

/-- C1 (amended): a field declared with a single integer index `i` reads
`values[i]` under JavaScript array indexing — the element at `i` when
`0 <= i < n`, and `undefined` otherwise; in particular every negative
single index yields `undefined` (absent) rather than indexing from the
end.  (Negative indices are honoured only by the slice forms.) -/
theorem c1_amended_single_index (V : List Val) (i : Int) :
    (readField (addStructure (setValues newOdo V) [("f", RangeSpec.idx i)]) "f").1
      = jsIndex V i
    ∧ (i < 0 →
        (readField (addStructure (setValues newOdo V) [("f", RangeSpec.idx i)]) "f").1
          = Val.undef)
    ∧ (0 ≤ i →
        (readField (addStructure (setValues newOdo V) [("f", RangeSpec.idx i)]) "f").1
          = V.getD i.toNat Val.undef) := by
  refine ⟨rfl, fun h => ?_, fun h => ?_⟩
  · show jsIndex V i = Val.undef
    simp [jsIndex, not_le.mpr h]
  · show jsIndex V i = V.getD i.toNat Val.undef
    simp [jsIndex, h]

/-- C1 (witness): the amended theorem applied at `V = [5, 6]`, `i = 1`
and at `i = -1`. -/
theorem c1_amended_single_index_witness :
    ((0 : Int) ≤ 1 ∧
      (readField (addStructure (setValues newOdo [Val.int 5, Val.int 6])
          [("f", RangeSpec.idx 1)]) "f").1
        = [Val.int 5, Val.int 6].getD (1 : Int).toNat Val.undef)
    ∧ ((-1 : Int) < 0 ∧
      (readField (addStructure (setValues newOdo [Val.int 5, Val.int 6])
          [("f", RangeSpec.idx (-1))]) "f").1 = Val.undef) :=
  ⟨⟨by decide, (c1_amended_single_index [Val.int 5, Val.int 6] 1).2.2 (by decide)⟩,
   ⟨by decide, (c1_amended_single_index [Val.int 5, Val.int 6] (-1)).2.1 (by decide)⟩⟩

/-- C6 (code evaluation at the failing input): declare the three-segment
field `"a.b.c"`, reset (which records the joined string `"a.b"` as
unused and leaves the containers `a` and `a.b` on the view), then call
`removeUnusedStructure()`.  The unused set *is* cleared, but because the
set holds joined strings while the deletion branch tests
`Array.isArray(field)`, the executed effect is `delete this["a.b"]` — a
no-op — and the nested unused containers `a: { b: {} }` survive on the
view, contradicting the claim that every unused container, including
nested ones, is deleted. -/
theorem c6_code_bug_eval :
    (resetStructure (addStructure (setValues newOdo [Val.int 7])
        [("a.b.c", RangeSpec.idx 0)])).map
      (fun s =>
        (s.unused, (removeUnusedStructure s).unused,
          (removeUnusedStructure s).root))
    = .ok (["a.b"], [],
        [("a", Node.objNode [("b", Node.objNode [])])]) := by rfl

/-- C7 (code evaluation at the failing input): after resetting the
three-segment field `"a.b.c"` the unused set holds `"a.b"`; re-adding
structure through the same containers (`"a.b.d"`) is claimed to unmark
that path, but the reclamation loop rebuilds the key from the whole
remaining path *array* (producing `"a,b"` and then `"a,b.a,b"`), which
never equals `"a.b"`, so the path stays marked.  For a two-segment field
(`"p.x"` then `"p.y"`) the rebuilt key happens to coincide with the
single segment (`"p"`), and reclamation works — the claim fails exactly
at depth three and beyond. -/
theorem c7_code_bug_eval :
    ((resetStructure (addStructure newOdo [("a.b.c", RangeSpec.idx 0)])).map
        (fun s => (addStructure s [("a.b.d", RangeSpec.idx 1)]).unused)
      = .ok ["a.b"])
    ∧ ((resetStructure (addStructure newOdo [("p.x", RangeSpec.idx 0)])).map
        (fun s => (addStructure s [("p.y", RangeSpec.idx 1)]).unused)
      = .ok []) :=
  ⟨rfl, rfl⟩

/-- C4 (counterexample): add the two-segment path `"a.0"`, whose leaf
segment `"0"` consists only of digits.  The claim requires the container
created for `"a"` to be an array (its following segment is purely
numeric), but the source computes `isPathNumber` *after* popping the
leaf, so `isPathNumber[index + 1]` is out of range for the container
preceding the leaf and the code creates a plain object. -/
theorem c4_counterexample :
    (addStructure newOdo [("a.0", RangeSpec.idx 0)]).root
      = [("a", Node.objNode [("0", Node.getter (Getter.single 0))])]
    ∧ ((addStructure newOdo [("a.0", RangeSpec.idx 0)]).root.map
        (fun kv => (kv.1, isArrayNode kv.2))) = [("a", false)]
    ∧ isDigitChars "0".toList = true :=
  ⟨rfl, rfl, rfl⟩

/-- C5 (counterexample): with old structure `{"p.x": 0}` and new,
entirely disjoint structure `{"q": 1}`, `resetStructure()` followed by
`addStructure()` leaves the emptied container `p` as an enumerable
property of the view alongside the new field `q` — the view does not
contain only the fields of the new structure map. -/
theorem c5_counterexample :
    (resetStructure (addStructure (setValues newOdo [Val.int 1, Val.int 2])
        [("p.x", RangeSpec.idx 0)])).map
      (fun s => (addStructure s [("q", RangeSpec.idx 1)]).root)
    = .ok [("p", Node.objNode []), ("q", Node.getter (Getter.single 1))] := by rfl

/-- C9 (counterexample): a transform produces a list whose element is a
function.  `JSON.stringify` serializes a function *inside an array* as
`null` (only function-valued properties of map-like objects are
dropped), so the exported structure contains `null` where the function
sat — the function-valued leaf is not absent from the export. -/
theorem c9_counterexample :
    exportOdo (addStructure (setValues newOdo [Val.int 1])
        [("a", RangeSpec.idxFn 0 (fun _ => Val.list [Val.fn 0]))])
      = Val.obj [("a", Val.list [Val.null])]
    ∧ Val.list [Val.null] ≠ Val.list [] :=
  ⟨rfl, by simp⟩

/-- C2: `setValues` replaces the backing sequence and clears the
transform cache, and changes nothing else — the field registry, the
unused set, the installed accessors (the whole view tree) and the
allocation counter are untouched; consequently any field whose
installed accessor is a non-cached one (plain index or plain slice)
reads, on the next access, the value derived from the new sequence,
with no structural work. -/
theorem c2_setValues_frame (st : OdoState) (vs : List Val) :
    (setValues st vs).values = vs
    ∧ (setValues st vs).cached = []
    ∧ (setValues st vs).fields = st.fields
    ∧ (setValues st vs).unused = st.unused
    ∧ (setValues st vs).root = st.root
    ∧ (setValues st vs).alloc = st.alloc
    ∧ (∀ key i, lookupProp st.root key = some (Node.getter (Getter.single i)) →
        readField (setValues st vs) key = (jsIndex vs i, none, setValues st vs))
    ∧ (∀ key s e, lookupProp st.root key = some (Node.getter (Getter.ranged s e)) →
        readField (setValues st vs) key
          = (Val.list (jsSlice vs s e), none, setValues st vs)) := by
  refine ⟨rfl, rfl, rfl, rfl, rfl, rfl, fun key i h => ?_, fun key s e h => ?_⟩
  · show readField { st with values := vs, cached := [] } key = _
    rw [readField]
    simp only [show ({ st with values := vs, cached := [] } : OdoState).root = st.root from rfl, h]
    rfl
  · show readField { st with values := vs, cached := [] } key = _
    rw [readField]
    simp only [show ({ st with values := vs, cached := [] } : OdoState).root = st.root from rfl, h]
    rfl

/-- C2 (witness): the frame theorem applied to a concrete instance with
one plain-index field and one slice field. -/
theorem c2_setValues_frame_witness :
    (lookupProp (addStructure (setValues newOdo [Val.int 1, Val.int 2, Val.int 3])
        [("a", RangeSpec.idx 0)]).root "a"
      = some (Node.getter (Getter.single 0)))
    ∧ readField (setValues (addStructure (setValues newOdo [Val.int 1, Val.int 2, Val.int 3])
        [("a", RangeSpec.idx 0)]) [Val.int 9, Val.int 8]) "a"
      = (jsIndex [Val.int 9, Val.int 8] 0, none,
         setValues (addStructure (setValues newOdo [Val.int 1, Val.int 2, Val.int 3])
           [("a", RangeSpec.idx 0)]) [Val.int 9, Val.int 8]) :=
  ⟨rfl,
   (c2_setValues_frame (addStructure (setValues newOdo [Val.int 1, Val.int 2, Val.int 3])
       [("a", RangeSpec.idx 0)]) [Val.int 9, Val.int 8]).2.2.2.2.2.2.1 "a" 0 rfl⟩

theorem lookupCache_cons_self (k : Nat) (v : Nat × Val) (r : List (Nat × (Nat × Val))) :
    lookupCache ((k, v) :: r) k = some v := by
  simp [lookupCache]

/-- C3: for a field installed from a transform-bearing range spec
(`[s, e, fn]` or `[i, fn]`) whose cache entry is not yet populated, the
first read computes the transform and returns it under a fresh
reference tag; a second read with no intervening `setValues` or
structure change returns the identical cached result (same value, same
reference tag) and leaves the state unchanged; a `setValues` call in
between clears the cache entry, so the read after it returns a freshly
computed transform of the *new* sequence under a new reference tag. -/
theorem c3_transform_cache (st : OdoState) :
    (∀ key s e f k,
      lookupProp st.root key = some (Node.getter (Getter.rangedT s e f k)) →
      lookupCache st.cached k = none →
      (readField st key).1 = f (Val.list (jsSlice st.values s e))
      ∧ (readField st key).2.1 = some st.alloc
      ∧ readField (readField st key).2.2 key
          = ((readField st key).1, (readField st key).2.1, (readField st key).2.2)
      ∧ (∀ vs,
          (readField (setValues (readField st key).2.2 vs) key).1
            = f (Val.list (jsSlice vs s e))
          ∧ (readField (setValues (readField st key).2.2 vs) key).2.1
            = some (st.alloc + 1)
          ∧ (readField (setValues (readField st key).2.2 vs) key).2.1
            ≠ (readField st key).2.1))
    ∧ (∀ key i f k,
      lookupProp st.root key = some (Node.getter (Getter.singleT i f k)) →
      lookupCache st.cached k = none →
      (readField st key).1 = f (jsIndex st.values i)
      ∧ (readField st key).2.1 = some st.alloc
      ∧ readField (readField st key).2.2 key
          = ((readField st key).1, (readField st key).2.1, (readField st key).2.2)
      ∧ (∀ vs,
          (readField (setValues (readField st key).2.2 vs) key).1
            = f (jsIndex vs i)
          ∧ (readField (setValues (readField st key).2.2 vs) key).2.1
            = some (st.alloc + 1)
          ∧ (readField (setValues (readField st key).2.2 vs) key).2.1
            ≠ (readField st key).2.1)) := by
  constructor
  · intro key s e f k h hc
    have hr : readField st key
        = (f (Val.list (jsSlice st.values s e)), some st.alloc,
           { st with
             cached := (k, (st.alloc, f (Val.list (jsSlice st.values s e)))) :: st.cached,
             alloc := st.alloc + 1 }) := by
      simp only [readField, h, forceGetter, hc]
    refine ⟨by rw [hr], by rw [hr], ?_, fun vs => ?_⟩
    · rw [hr]
      simp only [readField, h, forceGetter, lookupCache_cons_self]
    · have hr2 : readField (setValues (readField st key).2.2 vs) key
          = (f (Val.list (jsSlice vs s e)), some (st.alloc + 1),
             { st with
               values := vs,
               cached := [(k, (st.alloc + 1, f (Val.list (jsSlice vs s e))))],
               alloc := st.alloc + 2 }) := by
        rw [hr]
        simp only [readField, setValues, h, forceGetter, lookupCache]
      refine ⟨by rw [hr2], by rw [hr2], ?_⟩
      rw [hr2, hr]
      simp
  · intro key i f k h hc
    have hr : readField st key
        = (f (jsIndex st.values i), some st.alloc,
           { st with
             cached := (k, (st.alloc, f (jsIndex st.values i))) :: st.cached,
             alloc := st.alloc + 1 }) := by
      simp only [readField, h, forceGetter, hc]
    refine ⟨by rw [hr], by rw [hr], ?_, fun vs => ?_⟩
    · rw [hr]
      simp only [readField, h, forceGetter, lookupCache_cons_self]
    · have hr2 : readField (setValues (readField st key).2.2 vs) key
          = (f (jsIndex vs i), some (st.alloc + 1),
             { st with
               values := vs,
               cached := [(k, (st.alloc + 1, f (jsIndex vs i)))],
               alloc := st.alloc + 2 }) := by
        rw [hr]
        simp only [readField, setValues, h, forceGetter, lookupCache]
      refine ⟨by rw [hr2], by rw [hr2], ?_⟩
      rw [hr2, hr]
      simp

/-- C3 (witness): the caching theorem applied to a concrete instance
with one `[0, 2, fn]` slice-transform field, whose installed getter
carries cache key 0 and whose cache starts empty. -/
theorem c3_transform_cache_witness :
    (lookupProp (addStructure (setValues newOdo [Val.int 1, Val.int 2])
          [("w", RangeSpec.rngFn 0 2 (fun v => Val.list [v]))]).root "w"
        = some (Node.getter (Getter.rangedT 0 2 (fun v => Val.list [v]) 0)))
    ∧ (lookupCache (addStructure (setValues newOdo [Val.int 1, Val.int 2])
          [("w", RangeSpec.rngFn 0 2 (fun v => Val.list [v]))]).cached 0 = none)
    ∧ (readField (addStructure (setValues newOdo [Val.int 1, Val.int 2])
          [("w", RangeSpec.rngFn 0 2 (fun v => Val.list [v]))]) "w").1
        = (fun v => Val.list [v])
            (Val.list (jsSlice (addStructure (setValues newOdo [Val.int 1, Val.int 2])
              [("w", RangeSpec.rngFn 0 2 (fun v => Val.list [v]))]).values 0 2)) :=
  ⟨rfl, rfl,
    ((c3_transform_cache (addStructure (setValues newOdo [Val.int 1, Val.int 2])
        [("w", RangeSpec.rngFn 0 2 (fun v => Val.list [v]))])).1 "w" 0 2
      (fun v => Val.list [v]) 0 rfl rfl).1⟩

theorem setNodeProps_newContainer (c : Bool) (ps : List (String × Node)) :
    setNodeProps (newContainer c) ps = if c then Node.arrNode ps else Node.objNode ps := by
  cases c <;> rfl

theorem ensureWalk_cons_empty (b : Bool) (k : String) (ks : List String)
    (nums : List Bool) (idx : Nat) :
    ensureWalk (newContainer b) (k :: ks) nums idx
      = setNodeProps (newContainer b)
          [(k, ensureWalk (newContainer (nums.getD (idx + 1) false)) ks nums (idx + 1))] := by
  cases b <;> rfl

theorem numsNext (pre : List String) (k : String) (ks : List String) :
    ((pre ++ k :: ks).map jsIsFiniteStr).getD (pre.length + 1) false
      = match ks with | [] => false | k' :: _ => jsIsFiniteStr k' := by
  rw [List.getD_eq_getElem?_getD, List.getElem?_map,
    List.getElem?_append_right (by omega)]
  have h : pre.length + 1 - pre.length = 1 := by omega
  rw [h]
  cases ks <;> simp

theorem ensureWalk_chain (ks : List String) :
    ∀ (pre : List String) (b : Bool),
      ensureWalk (newContainer b) ks ((pre ++ ks).map jsIsFiniteStr) pre.length
        = setNodeProps (newContainer b) (chainProps ks) := by
  induction ks with
  | nil => intro pre b; cases b <;> rfl
  | cons k ks' ih =>
    intro pre b
    rw [ensureWalk_cons_empty, numsNext]
    cases ks' with
    | nil => rfl
    | cons k' ks'' =>
      have happ : pre ++ k :: k' :: ks'' = (pre ++ [k]) ++ (k' :: ks'') := by simp
      have hlen : pre.length + 1 = (pre ++ [k]).length := by simp
      rw [happ, hlen, ih (pre ++ [k]) (jsIsFiniteStr k')]
      cases h' : jsIsFiniteStr k' <;>
        simp [chainProps, h', setNodeProps_newContainer]

/-- C4 (amended): on an empty instance, `_ensurePathStructure` builds
for the intermediate segments of a path exactly the chain `chainProps`:
a container is an array iff the segment immediately following it is a
*non-leaf* segment accepted by JavaScript `isFinite` (every all-digit
segment qualifies, but so do signed or blank numeric-ish segments such
as `"-1"`, so "consists only of digits" is not the criterion); the
container immediately preceding the final (leaf) segment is always
map-like, because `isPathNumber` is computed after the leaf is popped
and the lookahead for the last intermediate segment falls off the end
of the array. -/
theorem c4_amended_container_kinds (st : OdoState) (segs : List String)
    (h : st.root = []) :
    (ensurePathStructure st segs).1.root = chainProps segs.dropLast
    ∧ (∀ k k' ks, chainProps (k :: k' :: ks)
        = [(k, if jsIsFiniteStr k' then Node.arrNode (chainProps (k' :: ks))
               else Node.objNode (chainProps (k' :: ks)))])
    ∧ (∀ k, chainProps [k] = [(k, Node.objNode [])])
    ∧ jsIsFiniteStr "-1" = true
    ∧ isDigitChars "-1".toList = false := by
  refine ⟨?_, fun k k' ks => rfl, fun k => rfl, rfl, rfl⟩
  show nodeProps (ensureWalk (Node.objNode st.root) segs.dropLast
      ((segs.dropLast).map jsIsFiniteStr) 0) = chainProps segs.dropLast
  rw [h]
  exact congrArg nodeProps (ensureWalk_chain segs.dropLast [] false)

/-- C4 (witness): the amended theorem applied to a fresh instance and
the path `a.0.b.c`: the container for `a` is an array (its successor
`"0"` is a numeric non-leaf segment), the container for `0` is a plain
object (successor `"b"` is not numeric), and the container for `b` —
the one preceding the leaf — is a plain object as well. -/
theorem c4_amended_container_kinds_witness :
    newOdo.root = ([] : List (String × Node))
    ∧ (ensurePathStructure newOdo ["a", "0", "b", "c"]).1.root
        = chainProps ["a", "0", "b"]
    ∧ chainProps ["a", "0", "b"]
        = [("a", Node.arrNode [("0", Node.objNode [("b", Node.objNode [])])])] :=
  ⟨rfl, (c4_amended_container_kinds newOdo ["a", "0", "b", "c"] rfl).1, by rfl⟩

theorem c5_step_add (V : List Val) (p x : String) (r1 : RangeSpec)
    (h1 : splitDot (p ++ "." ++ x) = [p, x])
    (h2 : containsDot (p ++ "." ++ x) = true) :
    addStructure (setValues newOdo V) [(p ++ "." ++ x, r1)]
      = { values := V, fields := [p ++ "." ++ x], unused := [], cached := [],
          root := [(p, Node.objNode
            [(x, Node.getter (convertRangeToGetter r1 Val.undef 0))])],
          alloc := if specUsesCache r1 then 1 else 0 } := by
  cases hu : specUsesCache r1 <;>
    simp only [addStructure, sortEntriesDesc, List.foldl, insertDesc, addStructureEntry,
      h1, h2, hu, if_true, ensurePathStructure, ensureWalk, nodeProps, lookupProp,
      setPropList, setNodeProps, newContainer, reclaimLoop, jsArrayToString,
      snapshotAt, nodeAtPath, addToSet, setAtPath, setValues, newOdo] <;>
    rfl

theorem c5_step_reset (V : List Val) (p x : String) (gA : Getter) (aA : Nat)
    (h1 : splitDot (p ++ "." ++ x) = [p, x])
    (h2 : containsDot (p ++ "." ++ x) = true) :
    resetStructure
        ({ values := V, fields := [p ++ "." ++ x], unused := [], cached := [],
           root := [(p, Node.objNode [(x, Node.getter gA)])], alloc := aA } : OdoState)
      = .ok ({ values := V, fields := [], unused := [p], cached := [],
               root := [(p, Node.objNode [])], alloc := aA } : OdoState) := by
  simp only [resetStructure, resetStructureField, List.foldlM, h1, h2, if_true,
    getCursorToEndOfPath, walkNav, readPropNav, truthyNode, truthyVal, lookupProp,
    deleteAtPath, eraseProp, setPropList, nodeProps, setNodeProps, addToSet,
    Except.map, bind, Except.bind, pure, Except.pure, List.dropLast, List.getLast?]
  simp
  rfl

theorem c5_step_add2 (V : List Val) (p q : String) (r2 : RangeSpec) (aA : Nat)
    (u : List String) (n0 : Node)
    (h3 : containsDot q = false) (h4' : p ≠ q) :
    addStructure
        ({ values := V, fields := [], unused := u, cached := [],
           root := [(p, n0)], alloc := aA } : OdoState) [(q, r2)]
      = { values := V, fields := [q], unused := u, cached := [],
          root := [(p, n0),
                   (q, Node.getter (convertRangeToGetter r2 Val.undef aA))],
          alloc := if specUsesCache r2 then aA + 1 else aA } := by
  cases hu : specUsesCache r2 <;>
    simp only [addStructure, sortEntriesDesc, List.foldl, insertDesc, addStructureEntry,
      h3, hu, Bool.false_eq_true, if_false, if_true, snapshotAt, nodeAtPath, nodeProps,
      lookupProp, h4', setPropList, setNodeProps, setAtPath, addToSet] <;>
    simp [h4']

theorem c5_step_add_deep (V : List Val) (a b c : String) (r1 : RangeSpec)
    (h1 : splitDot (a ++ "." ++ b ++ "." ++ c) = [a, b, c])
    (h2 : containsDot (a ++ "." ++ b ++ "." ++ c) = true)
    (hb : jsIsFiniteStr b = false) :
    addStructure (setValues newOdo V) [(a ++ "." ++ b ++ "." ++ c, r1)]
      = { values := V, fields := [a ++ "." ++ b ++ "." ++ c], unused := [], cached := [],
          root := [(a, Node.objNode [(b, Node.objNode
            [(c, Node.getter (convertRangeToGetter r1 Val.undef 0))])])],
          alloc := if specUsesCache r1 then 1 else 0 } := by
  cases hu : specUsesCache r1 <;>
    simp only [addStructure, sortEntriesDesc, List.foldl, insertDesc, addStructureEntry,
      h1, h2, hu, if_true, if_false, Bool.false_eq_true, ensurePathStructure, ensureWalk,
      nodeProps, lookupProp, setPropList, setNodeProps, newContainer, reclaimLoop,
      jsArrayToString, snapshotAt, nodeAtPath, addToSet, setAtPath, setValues, newOdo,
      List.dropLast, List.getLast?, List.map, List.getD_cons_succ, List.getD_cons_zero,
      List.getD_nil, hb] <;>
    simp [hb]

theorem c5_step_reset_deep (V : List Val) (a b c : String) (g : Getter) (aA : Nat)
    (h1 : splitDot (a ++ "." ++ b ++ "." ++ c) = [a, b, c])
    (h2 : containsDot (a ++ "." ++ b ++ "." ++ c) = true) :
    resetStructure
        ({ values := V, fields := [a ++ "." ++ b ++ "." ++ c], unused := [], cached := [],
           root := [(a, Node.objNode [(b, Node.objNode [(c, Node.getter g)])])],
           alloc := aA } : OdoState)
      = .ok ({ values := V, fields := [], unused := [a ++ "." ++ b], cached := [],
               root := [(a, Node.objNode [(b, Node.objNode [])])],
               alloc := aA } : OdoState) := by
  simp only [resetStructure, resetStructureField, List.foldlM, h1, h2, if_true,
    getCursorToEndOfPath, walkNav, readPropNav, truthyNode, truthyVal, lookupProp,
    deleteAtPath, eraseProp, setPropList, nodeProps, setNodeProps, addToSet,
    Except.map, bind, Except.bind, pure, Except.pure, List.dropLast, List.getLast?]
  simp
  rfl

theorem containsDot_mid (a b : String) : containsDot (a ++ "." ++ b) = true := by
  simp [containsDot, String.toList, String.data_append, List.any_append]

/-- C5 (amended): after `resetStructure()`, an `addStructure()` call
with entirely disjoint paths yields a view containing the new fields
*plus* the emptied intermediate containers left over from the old
multi-segment paths — still enumerable, and tracked in the unused set
as dot-joined path strings.  A following `removeUnusedStructure()` (as
`setStructure` performs) clears the unused set but deletes only
leftovers recorded under a single top-level key, i.e. those of
two-segment old fields, after which only the new fields remain from
that family; the container chain left by an old field of three or more
segments survives on the view even after `removeUnusedStructure()`
(its recorded key `"a.b"` names no top-level property).  Shown for the
representative families `{p.x: r1}` and `{a.b.c: r1}`, each replaced by
a disjoint `{q: r2}`, with arbitrary values, specs and (dot-free,
distinct) names. -/
theorem c5_amended_reset_add :
    (∀ (V : List Val) (p x q : String) (r1 r2 : RangeSpec),
      splitDot (p ++ "." ++ x) = [p, x] →
      containsDot (p ++ "." ++ x) = true →
      containsDot q = false → q ≠ p →
      (resetStructure (addStructure (setValues newOdo V) [(p ++ "." ++ x, r1)])).map
        (fun s =>
          ((addStructure s [(q, r2)]).root.map Prod.fst,
           lookupProp (addStructure s [(q, r2)]).root p,
           (addStructure s [(q, r2)]).unused,
           (removeUnusedStructure (addStructure s [(q, r2)])).root.map Prod.fst,
           (removeUnusedStructure (addStructure s [(q, r2)])).unused))
        = .ok ([p, q], some (Node.objNode []), [p], [q], []))
    ∧ (∀ (V : List Val) (a b c q : String) (r1 r2 : RangeSpec),
      splitDot (a ++ "." ++ b ++ "." ++ c) = [a, b, c] →
      containsDot (a ++ "." ++ b ++ "." ++ c) = true →
      jsIsFiniteStr b = false →
      containsDot q = false → q ≠ a →
      (resetStructure (addStructure (setValues newOdo V)
          [(a ++ "." ++ b ++ "." ++ c, r1)])).map
        (fun s =>
          ((addStructure s [(q, r2)]).root.map Prod.fst,
           (addStructure s [(q, r2)]).unused,
           (removeUnusedStructure (addStructure s [(q, r2)])).root.map Prod.fst,
           lookupProp (removeUnusedStructure (addStructure s [(q, r2)])).root a,
           (removeUnusedStructure (addStructure s [(q, r2)])).unused))
        = .ok ([a, q], [a ++ "." ++ b], [a, q],
               some (Node.objNode [(b, Node.objNode [])]), [])) := by
  constructor
  · intro V p x q r1 r2 h1 h2 h3 h4
    have h4' : p ≠ q := Ne.symm h4
    rw [c5_step_add V p x r1 h1 h2,
      c5_step_reset V p x (convertRangeToGetter r1 Val.undef 0)
        (if specUsesCache r1 then 1 else 0) h1 h2]
    simp only [Except.map,
      c5_step_add2 V p q r2 (if specUsesCache r1 then 1 else 0) [p] (Node.objNode [])
        h3 h4']
    simp only [removeUnusedStructure, List.foldl, List.map, lookupProp, eraseProp,
      h4', if_true]
  · intro V a b c q r1 r2 h1 h2 hb h3 h4
    have h4' : a ≠ q := Ne.symm h4
    have ha : a ≠ a ++ "." ++ b := by
      intro he
      have h' := congrArg String.length he
      rw [String.length_append, String.length_append,
        show (".").length = 1 from rfl] at h'
      omega
    have hq : q ≠ a ++ "." ++ b := by
      intro he
      rw [he, containsDot_mid] at h3
      exact Bool.noConfusion h3
    rw [c5_step_add_deep V a b c r1 h1 h2 hb,
      c5_step_reset_deep V a b c (convertRangeToGetter r1 Val.undef 0)
        (if specUsesCache r1 then 1 else 0) h1 h2]
    simp only [Except.map,
      c5_step_add2 V a q r2 (if specUsesCache r1 then 1 else 0) [a ++ "." ++ b]
        (Node.objNode [(b, Node.objNode [])]) h3 h4']
    simp only [removeUnusedStructure, List.foldl, List.map, lookupProp, eraseProp,
      ha, hq, h4', if_true]

/-- C5 (witness): the amended theorem applied at both families —
`{p.x: 0}` replaced by `{q: 1}` (the leftover `p` is deleted by
`removeUnusedStructure`), and `{a.b.c: 0}` replaced by `{q: 1}` (the
leftover chain `a.b` survives `removeUnusedStructure`). -/
theorem c5_amended_reset_add_witness :
    ((splitDot ("p" ++ "." ++ "x") = ["p", "x"])
    ∧ ((resetStructure (addStructure (setValues newOdo [Val.int 1, Val.int 2])
          [("p" ++ "." ++ "x", RangeSpec.idx 0)])).map
        (fun s =>
          ((addStructure s [("q", RangeSpec.idx 1)]).root.map Prod.fst,
           lookupProp (addStructure s [("q", RangeSpec.idx 1)]).root "p",
           (addStructure s [("q", RangeSpec.idx 1)]).unused,
           (removeUnusedStructure (addStructure s [("q", RangeSpec.idx 1)])).root.map
             Prod.fst,
           (removeUnusedStructure (addStructure s [("q", RangeSpec.idx 1)])).unused))
      = .ok (["p", "q"], some (Node.objNode []), ["p"], ["q"], [])))
    ∧ ((splitDot ("a" ++ "." ++ "b" ++ "." ++ "c") = ["a", "b", "c"])
    ∧ ((resetStructure (addStructure (setValues newOdo [Val.int 1])
          [("a" ++ "." ++ "b" ++ "." ++ "c", RangeSpec.idx 0)])).map
        (fun s =>
          ((addStructure s [("q", RangeSpec.idx 1)]).root.map Prod.fst,
           (addStructure s [("q", RangeSpec.idx 1)]).unused,
           (removeUnusedStructure (addStructure s [("q", RangeSpec.idx 1)])).root.map
             Prod.fst,
           lookupProp (removeUnusedStructure
             (addStructure s [("q", RangeSpec.idx 1)])).root "a",
           (removeUnusedStructure (addStructure s [("q", RangeSpec.idx 1)])).unused))
      = .ok (["a", "q"], ["a" ++ "." ++ "b"], ["a", "q"],
             some (Node.objNode [("b", Node.objNode [])]), []))) :=
  ⟨⟨rfl,
    c5_amended_reset_add.1 [Val.int 1, Val.int 2] "p" "x" "q"
      (RangeSpec.idx 0) (RangeSpec.idx 1) rfl rfl rfl (by decide)⟩,
   ⟨rfl,
    c5_amended_reset_add.2 [Val.int 1] "a" "b" "c" "q"
      (RangeSpec.idx 0) (RangeSpec.idx 1) rfl rfl rfl rfl (by decide)⟩⟩

theorem walkNav_ok (st : OdoState) (path : List String) (lastKey : String) :
    ∀ (fs : List String) (n : Node) (walked : List String),
      (∀ j, j < fs.length →
        truthyNode (readPropNav st (navSeq st n (fs.take j)) (fs.getD j "")) = true) →
      walkNav st path lastKey n fs walked = .ok () := by
  intro fs
  induction fs with
  | nil => intro n walked _; rfl
  | cons f fs' ih =>
    intro n walked h
    have h0 : truthyNode (readPropNav st n f) = true := h 0 (Nat.succ_pos _)
    show (if truthyNode (readPropNav st n f) then _ else _) = _
    rw [h0, if_pos rfl]
    exact ih (readPropNav st n f) (walked ++ [f]) (fun j hj => h (j + 1) (Nat.succ_lt_succ hj))

theorem walkNav_err (st : OdoState) (path : List String) (lastKey : String) :
    ∀ (fs : List String) (n : Node) (walked : List String) (j : Nat),
      j < fs.length →
      (∀ i, i < j →
        truthyNode (readPropNav st (navSeq st n (fs.take i)) (fs.getD i "")) = true) →
      truthyNode (readPropNav st (navSeq st n (fs.take j)) (fs.getD j "")) = false →
      walkNav st path lastKey n fs walked
        = .error (pathError (fs.getD j "") path (walked ++ fs.take j) lastKey) := by
  intro fs
  induction fs with
  | nil => intro n walked j hj; exact absurd hj (Nat.not_lt_zero _)
  | cons f fs' ih =>
    intro n walked j hj hall hbad
    cases j with
    | zero =>
      show (if truthyNode (readPropNav st n f) then _ else _) = _
      rw [show truthyNode (readPropNav st n f) = false from hbad, if_neg (by simp)]
      simp [pathError]
    | succ j' =>
      have h0 : truthyNode (readPropNav st n f) = true := hall 0 (Nat.succ_pos _)
      show (if truthyNode (readPropNav st n f) then _ else _) = _
      rw [h0, if_pos rfl]
      have := ih (readPropNav st n f) (walked ++ [f]) j'
        (Nat.lt_of_succ_lt_succ hj)
        (fun i hi => hall (i + 1) (Nat.succ_lt_succ hi))
        hbad
      rw [this]
      simp

theorem walkNav_err_exists (st : OdoState) (path : List String) (lastKey : String) :
    ∀ (fs : List String) (n : Node) (walked : List String) (e : OdoErr),
      walkNav st path lastKey n fs walked = .error e →
      ∃ j, j < fs.length ∧
        truthyNode (readPropNav st (navSeq st n (fs.take j)) (fs.getD j "")) = false := by
  intro fs
  induction fs with
  | nil => intro n walked e h; exact absurd h (by simp [walkNav])
  | cons f fs' ih =>
    intro n walked e h
    by_cases h0 : truthyNode (readPropNav st n f) = true
    · rw [show walkNav st path lastKey n (f :: fs') walked
          = walkNav st path lastKey (readPropNav st n f) fs' (walked ++ [f]) from by
        show (if truthyNode (readPropNav st n f) then _ else _) = _
        rw [h0, if_pos rfl]] at h
      obtain ⟨j, hj, hbad⟩ := ih (readPropNav st n f) (walked ++ [f]) e h
      exact ⟨j + 1, Nat.succ_lt_succ hj, hbad⟩
    · exact ⟨0, Nat.succ_pos _, Bool.not_eq_true _ ▸ Bool.eq_false_iff.mpr h0⟩

/-- C8: a Path Resolution Failure is raised by the cursor walk exactly
when navigating an existing path segment meets an absent/falsy parent:
if every inspected parent along the intermediate segments is truthy the
walk returns the cursor and no error is raised; if the first falsy
parent is met at step `j`, the walk raises the `OdoError` carrying the
offending segment and the partial cursor (the prefix walked so far, the
full intermediate path and the final key); every raised error arises
from some falsy step; and the error propagates uncaught out of
`resetStructure` (the only public operation that actually reaches the
walk — `addStructure` creates missing segments instead of navigating
them, and `removeUnusedStructure` only executes its string branch). -/
theorem c8_path_resolution_failure (st : OdoState) (segs : List String) :
    ((∀ j, j < segs.dropLast.length → stepTruthy st segs.dropLast j = true) →
      getCursorToEndOfPath st segs = .ok (segs.dropLast, (segs.getLast?).getD ""))
    ∧ (∀ j, j < segs.dropLast.length →
        (∀ i, i < j → stepTruthy st segs.dropLast i = true) →
        stepTruthy st segs.dropLast j = false →
        getCursorToEndOfPath st segs
          = .error (pathError (segs.dropLast.getD j "") segs.dropLast
              (segs.dropLast.take j) ((segs.getLast?).getD "")))
    ∧ (∀ e, getCursorToEndOfPath st segs = .error e →
        ∃ j, j < segs.dropLast.length ∧ stepTruthy st segs.dropLast j = false)
    ∧ (∀ f e, st.fields = [f] → containsDot f = true →
        getCursorToEndOfPath { st with unused := [], cached := [] } (splitDot f)
          = .error e →
        resetStructure st = .error e) := by
  refine ⟨fun h => ?_, fun j hj hall hbad => ?_, fun e h => ?_, fun f e hf hdot herr => ?_⟩
  · show (walkNav st segs.dropLast ((segs.getLast?).getD "") (.objNode st.root)
        segs.dropLast []).map _ = _
    rw [walkNav_ok st segs.dropLast ((segs.getLast?).getD "") segs.dropLast
      (.objNode st.root) [] h]
    rfl
  · show (walkNav st segs.dropLast ((segs.getLast?).getD "") (.objNode st.root)
        segs.dropLast []).map _ = _
    rw [walkNav_err st segs.dropLast ((segs.getLast?).getD "") segs.dropLast
      (.objNode st.root) [] j hj hall hbad]
    rfl
  · have h' : walkNav st segs.dropLast ((segs.getLast?).getD "") (.objNode st.root)
        segs.dropLast [] = .error e := by
      revert h
      show (walkNav st segs.dropLast ((segs.getLast?).getD "") (.objNode st.root)
        segs.dropLast []).map _ = _ → _
      cases walkNav st segs.dropLast ((segs.getLast?).getD "") (.objNode st.root)
        segs.dropLast [] with
      | ok v => intro hx; exact absurd hx (by simp [Except.map])
      | error e' => intro hx; simpa [Except.map] using hx
    exact walkNav_err_exists st segs.dropLast ((segs.getLast?).getD "")
      segs.dropLast (.objNode st.root) [] e h'
  · rw [hf] at herr
    show (do
        let st ← ({ st with unused := [], cached := [] } : OdoState).fields.foldlM
          resetStructureField ({ st with unused := [], cached := [] } : OdoState)
        pure { st with fields := [] } : Except OdoErr OdoState) = .error e
    rw [show ({ st with unused := [], cached := [] } : OdoState).fields = [f] from hf]
    simp only [List.foldlM, resetStructureField, hdot, if_true, herr]
    rfl

/-- C8 (witness): the walk theorem applied to concrete instances — a
two-container chain navigates successfully; a falsy parent (`a = 0`)
raises the error with its context; a dangling dotted field makes
`resetStructure` propagate that error. -/
theorem c8_path_resolution_failure_witness :
    (getCursorToEndOfPath
        ({ values := [], fields := [], unused := [], cached := [],
           root := [("a", Node.objNode [("b", Node.objNode [])])], alloc := 0 } : OdoState)
        ["a", "b", "c"]
      = .ok (["a", "b"], "c"))
    ∧ (getCursorToEndOfPath
        ({ values := [], fields := [], unused := [], cached := [],
           root := [("a", Node.val (Val.int 0))], alloc := 0 } : OdoState)
        ["a", "b", "c"]
      = .error (pathError "a" ["a", "b"] [] "c"))
    ∧ (resetStructure
        ({ values := [], fields := ["a.b"], unused := [], cached := [],
           root := [], alloc := 0 } : OdoState)
      = .error (pathError "a" ["a"] [] "b")) :=
  ⟨(c8_path_resolution_failure _ ["a", "b", "c"]).1
      (fun j hj => match j, hj with
        | 0, _ => rfl
        | 1, _ => rfl),
   (c8_path_resolution_failure _ ["a", "b", "c"]).2.1 0 (by decide)
      (fun i hi => absurd hi (Nat.not_lt_zero i)) rfl,
   (c8_path_resolution_failure
       ({ values := [], fields := ["a.b"], unused := [], cached := [],
          root := [], alloc := 0 } : OdoState) ["a", "b"]).2.2.2
     "a.b" (pathError "a" ["a"] [] "b") rfl rfl rfl⟩

mutual
theorem jsonScrub_fnFree : ∀ (v w : Val), jsonScrub v = some w → fnFree w = true
  | .undef, _, h => by simp [jsonScrub] at h
  | .fn _, _, h => by simp [jsonScrub] at h
  | .null, w, h => by simp [jsonScrub] at h; subst h; rfl
  | .bool _, w, h => by simp [jsonScrub] at h; subst h; rfl
  | .int _, w, h => by simp [jsonScrub] at h; subst h; rfl
  | .str _, w, h => by simp [jsonScrub] at h; subst h; rfl
  | .list xs, w, h => by
    simp [jsonScrub] at h
    subst h
    exact jsonScrubArr_fnFree xs
  | .obj ps, w, h => by
    simp [jsonScrub] at h
    subst h
    exact jsonScrubObj_fnFree ps

theorem jsonScrubArr_fnFree : ∀ (xs : List Val), fnFree (.list (jsonScrubArr xs)) = true
  | [] => rfl
  | x :: xs => by
    show (fnFree ((jsonScrub x).getD .null) && fnFree (.list (jsonScrubArr xs))) = true
    rw [jsonScrubArr_fnFree xs]
    cases hx : jsonScrub x with
    | none => rfl
    | some w => simp [jsonScrub_fnFree x w hx]

theorem jsonScrubObj_fnFree : ∀ (ps : List (String × Val)), fnFree (.obj (jsonScrubObj ps)) = true
  | [] => rfl
  | (k, v) :: ps => by
    show fnFree (.obj (match jsonScrub v with
      | some w => (k, w) :: jsonScrubObj ps
      | none => jsonScrubObj ps)) = true
    cases hv : jsonScrub v with
    | none => exact jsonScrubObj_fnFree ps
    | some w =>
      show (fnFree w && fnFree (.obj (jsonScrubObj ps))) = true
      rw [jsonScrub_fnFree v w hv, jsonScrubObj_fnFree ps]
      rfl
end

/-- C9 (amended): `export()` yields a structure-shaped plain value in
which no function value survives anywhere; a function-valued property
of a map-like container is dropped, while a function-valued element of
a list-like value is replaced by `null` (so it is absent as a function,
but present as a `null` placeholder, per `JSON.stringify` array
semantics). -/
theorem c9_amended_export :
    (∀ st : OdoState, fnFree (exportOdo st) = true)
    ∧ (∀ (k : String) (i : Nat) (ps : List (String × Val)),
        jsonScrubObj ((k, Val.fn i) :: ps) = jsonScrubObj ps)
    ∧ (∀ (i : Nat) (xs : List Val),
        jsonScrubArr (Val.fn i :: xs) = Val.null :: jsonScrubArr xs) :=
  ⟨fun st => jsonScrubObj_fnFree (materializeProps st st.root),
   fun _ _ _ => rfl, fun _ _ => rfl⟩

theorem reclaimLoop_not_mem (k : String) :
    ∀ (ks : List String) (u : List String) (rebuilt chunk : String),
      k ∉ u → k ∉ reclaimLoop u rebuilt chunk ks := by
  intro ks
  induction ks with
  | nil => intro u rebuilt chunk h; exact h
  | cons _ ks' ih =>
    intro u rebuilt chunk h
    exact ih _ _ _ (fun hk => h (List.mem_of_mem_erase hk))

theorem addStructureEntry_unused_not_mem (st : OdoState) (f : String) (r : RangeSpec)
    (k : String) (h : k ∉ st.unused) : k ∉ (addStructureEntry st f r).unused := by
  unfold addStructureEntry
  by_cases hd : containsDot f <;>
    by_cases hc : specUsesCache r <;>
      simp only [hd, hc, ensurePathStructure, if_true, if_false, Bool.false_eq_true] <;>
      first
        | exact reclaimLoop_not_mem k _ _ _ _ h
        | exact h

theorem addStructure_unused_not_mem (k : String) :
    ∀ (l : List (String × RangeSpec)) (st : OdoState),
      k ∉ st.unused →
      k ∉ (l.foldl (fun s e => addStructureEntry s e.1 e.2) st).unused := by
  intro l
  induction l with
  | nil => intro st h; exact h
  | cons e l' ih =>
    intro st h
    exact ih _ (addStructureEntry_unused_not_mem st e.1 e.2 k h)

theorem foldl_eraseProp_lookup (k : String) :
    ∀ (l : List String) (r : List (String × Node)),
      k ∉ l → lookupProp (l.foldl (fun acc f => eraseProp acc f) r) k = lookupProp r k := by
  intro l
  induction l with
  | nil => intro r _; rfl
  | cons f l' ih =>
    intro r h
    rw [List.mem_cons, not_or] at h
    rw [List.foldl_cons, ih _ h.2, lookupProp_eraseProp_ne _ _ _ (Ne.symm h.1)]

/-- C10: `resetStructure` clears the unused set before recording the
prefixes of the generation it removes — its result does not depend on
the incoming unused set at all — so a container marked unused by an
earlier reset and not reclaimed in between is silently dropped from
tracking by the next reset; once a key is out of the unused set, no
sequence of non-reset operations (`setValues`, `addStructure`,
`removeUnusedStructure`) ever puts it back, and `removeUnusedStructure`
deletes only keys that are in the unused set, so such a dropped
container is never deleted from the view. -/
theorem c10_unused_tracking :
    (∀ (st : OdoState) (u1 u2 : List String),
      resetStructure { st with unused := u1 } = resetStructure { st with unused := u2 })
    ∧ (∀ (st : OdoState) (k : String), k ∉ st.unused →
        lookupProp (removeUnusedStructure st).root k = lookupProp st.root k)
    ∧ (∀ (st : OdoState) (k : String) (ops : List NonResetOp), k ∉ st.unused →
        k ∉ (applyNonResetOps st ops).unused) := by
  refine ⟨fun st u1 u2 => rfl, fun st k h => foldl_eraseProp_lookup k st.unused st.root h,
    fun st k ops => ?_⟩
  induction ops generalizing st with
  | nil => exact fun h => h
  | cons op ops' ih =>
    intro h
    refine ih (applyNonResetOp st op) ?_
    cases op with
    | setVals vs => exact h
    | addStr entries => exact addStructure_unused_not_mem k (sortEntriesDesc entries) st h
    | removeUnused => simp [applyNonResetOp, removeUnusedStructure]

/-- C10 (witness): the tracking theorem applied to a concrete state in
which the container `p` (left over from an earlier generation) is no
longer tracked while `q` is: `removeUnusedStructure` deletes `q` but
leaves `p` untouched. -/
theorem c10_unused_tracking_witness :
    ("p" ∉ (["q"] : List String))
    ∧ lookupProp (removeUnusedStructure
        ({ values := [], fields := [], unused := ["q"], cached := [],
           root := [("p", Node.objNode []), ("q", Node.objNode [])],
           alloc := 0 } : OdoState)).root "p"
      = lookupProp
          ({ values := [], fields := [], unused := ["q"], cached := [],
             root := [("p", Node.objNode []), ("q", Node.objNode [])],
             alloc := 0 } : OdoState).root "p"
    ∧ ("p" ∉ (applyNonResetOps
        ({ values := [], fields := [], unused := ["q"], cached := [],
           root := [("p", Node.objNode []), ("q", Node.objNode [])],
           alloc := 0 } : OdoState) [NonResetOp.removeUnused]).unused) :=
  ⟨by decide,
   c10_unused_tracking.2.1
     ({ values := [], fields := [], unused := ["q"], cached := [],
        root := [("p", Node.objNode []), ("q", Node.objNode [])],
        alloc := 0 } : OdoState) "p" (by decide),
   c10_unused_tracking.2.2
     ({ values := [], fields := [], unused := ["q"], cached := [],
        root := [("p", Node.objNode []), ("q", Node.objNode [])],
        alloc := 0 } : OdoState) "p" [NonResetOp.removeUnused] (by decide)⟩
